import Mathlib

/-
Verification of the organization-integration-configuration reconciliation core
of the terraform-provider-sentry repository.

Two variants of the same reconciliation logic are embedded here:
  * the framework variant
    (internal/provider/resource_organization_integration_configuration.go), and
  * the legacy variant
    (resource_sentry_organization_integration_configuration, SDKv2 style).

The remote Sentry API is modelled by the sequence of answers it gives to the
`List` calls of one invocation (`List ListResult`) and by an `updateConfig`
oracle for the whole-document update endpoint.  Remote interaction of an
operation is made observable as a trace of `RemoteCall`s.
-/

deriving instance DecidableEq for Except

/-- Configuration leaf value: an opaque string or a nested string map
(`ConfigValue` union of the spec's data model, the shapes the provider's
`config` map attribute admits). -/
inductive ConfigValue where
  | str : String → ConfigValue
  | nested : List (String × String) → ConfigValue
deriving DecidableEq

/-- The configuration document (`sentry.IntegrationConfigData`): a mapping from
string keys to configuration values, embedded as an association list. -/
abbrev IntegrationConfigData := List (String × ConfigValue)

/-- The provider descriptor carried by a remote integration
(`d.Provider.Key` in the source). -/
structure IntegrationProvider where
  Key : String
deriving DecidableEq

/-- A remote organization integration (`sentry.OrganizationIntegration`):
the fields the reconciliation core reads. -/
structure OrganizationIntegration where
  ID : String
  Provider : IntegrationProvider
  Name : String
  ConfigData : IntegrationConfigData
deriving DecidableEq

/-- The part of the API response the pagination loop inspects:
`apiResp.Cursor`, the next-page cursor, empty on the final page. -/
structure APIResponse where
  Cursor : String
deriving DecidableEq

/-- One answer of the remote `List` endpoint: either a page of integrations
together with the response carrying the next cursor, or a transport error. -/
inductive ListResult where
  | ok : List OrganizationIntegration → APIResponse → ListResult
  | fail : String → ListResult
deriving DecidableEq

/-- The items of a `List` answer (empty for a failed call). -/
def pageItems : ListResult → List OrganizationIntegration
  | .ok items _ => items
  | .fail _ => []

/-- The error taxonomy of the reconciliation core as surfaced to the caller:
remote/client errors, the zero-match and multiple-match failures of the
matcher, document conversion failures and malformed composite identifiers. -/
inductive Diag where
  | remoteError : String → Diag
  | notFound : Diag
  | notUnique : Diag
  | conversionError : String → Diag
  | malformedId : String → Diag
deriving DecidableEq

/-- An observable call to the remote service: a paginated `List` request or an
`UpdateConfig` request with the submitted configuration document. -/
inductive RemoteCall where
  | listCall : String → String → String → RemoteCall
  | updateConfigCall : String → String → IntegrationConfigData → RemoteCall
deriving DecidableEq

/-- The framework variant's resource model
(`organizationIntegrationConfigurationResourceModel`); `ConfigData` holds the
configuration document serialized as a JSON string. -/
structure ResourceModel where
  Id : String
  Organization : String
  ProviderKey : String
  IsFragment : Bool
  Name : String
  ConfigData : String
deriving DecidableEq

/-- The legacy variant's resource data: the schema fields the legacy resource
reads and writes (`id` is the composite resource identifier,
`internalId` the computed `internal_id` attribute). -/
structure LegacyResourceData where
  id : String
  organization : String
  providerKey : String
  name : String
  config : IntegrationConfigData
  internalId : String
deriving DecidableEq

/-- JSON string literal (quote-wrapped; the documents exercised here contain no
characters needing escapes, so escaping is not modelled). -/
def jsonString (s : String) : String :=
  "\"" ++ s ++ "\""

/-- JSON rendering of a nested string map. -/
def jsonOfPairs (ps : List (String × String)) : String :=
  "\x7b" ++ String.intercalate ","
    (ps.map (fun kv => jsonString kv.1 ++ ":" ++ jsonString kv.2)) ++ "\x7d"

/-- JSON rendering of one configuration value. -/
def jsonOfValue : ConfigValue → String
  | .str s => jsonString s
  | .nested m => jsonOfPairs m

/-- `json.Marshal` on a configuration document, modelled on the
association-list representation: keys are emitted in list order (Go emits map
keys in sorted order; concrete documents in this file are listed sorted).
On this grammar marshalling cannot fail. -/
def jsonMarshal (doc : IntegrationConfigData) : String :=
  "\x7b" ++ String.intercalate ","
    (doc.map (fun kv => jsonString kv.1 ++ ":" ++ jsonOfValue kv.2)) ++ "\x7d"

/-- Consume characters up to the closing quote of a JSON string literal. -/
def takeUntilQuote : List Char → Except String (String × List Char)
  | [] => .error "unexpected end of JSON input"
  | c :: rest =>
    if c = '"' then .ok ("", rest)
    else
      match takeUntilQuote rest with
      | .ok (s, r) => .ok (String.mk (c :: s.data), r)
      | .error e => .error e

/-- Parse a JSON string literal including its opening quote. -/
def parseStringLit : List Char → Except String (String × List Char)
  | c :: rest =>
    if c = '"' then takeUntilQuote rest
    else .error "expected string"
  | [] => .error "expected string"

/-- Parse the members of a nested string-map object after its opening brace
(non-empty member list). -/
def parseStrPairs : Nat → List Char → Except String (List (String × String) × List Char)
  | 0, _ => .error "JSON input too long"
  | Nat.succ fuel, cs =>
    match parseStringLit cs with
    | .error e => .error e
    | .ok (k, rest) =>
      match rest with
      | ':' :: rest2 =>
        match parseStringLit rest2 with
        | .error e => .error e
        | .ok (v, rest3) =>
          match rest3 with
          | ',' :: rest4 =>
            match parseStrPairs fuel rest4 with
            | .ok (ps, r) => .ok ((k, v) :: ps, r)
            | .error e => .error e
          | '\x7d' :: rest4 => .ok ([(k, v)], rest4)
          | _ => .error "expected comma or closing brace"
      | _ => .error "expected colon"

/-- Parse a nested string-map object starting at its opening brace. -/
def parseStrObject (fuel : Nat) (cs : List Char) :
    Except String (List (String × String) × List Char) :=
  match cs with
  | '\x7b' :: '\x7d' :: rest => .ok ([], rest)
  | '\x7b' :: rest => parseStrPairs fuel rest
  | _ => .error "expected object"

/-- Parse one configuration value: a string literal or a nested object. -/
def parseValue (fuel : Nat) (cs : List Char) :
    Except String (ConfigValue × List Char) :=
  match cs with
  | '"' :: rest =>
    match takeUntilQuote rest with
    | .ok (s, r) => .ok (ConfigValue.str s, r)
    | .error e => .error e
  | '\x7b' :: _ =>
    match parseStrObject fuel cs with
    | .ok (m, r) => .ok (ConfigValue.nested m, r)
    | .error e => .error e
  | _ => .error "unexpected token"

/-- Parse the members of the top-level object after its opening brace
(non-empty member list). -/
def parseTopPairs : Nat → List Char → Except String (IntegrationConfigData × List Char)
  | 0, _ => .error "JSON input too long"
  | Nat.succ fuel, cs =>
    match parseStringLit cs with
    | .error e => .error e
    | .ok (k, rest) =>
      match rest with
      | ':' :: rest2 =>
        match parseValue fuel rest2 with
        | .error e => .error e
        | .ok (v, rest3) =>
          match rest3 with
          | ',' :: rest4 =>
            match parseTopPairs fuel rest4 with
            | .ok (ps, r) => .ok ((k, v) :: ps, r)
            | .error e => .error e
          | '\x7d' :: rest4 => .ok ([(k, v)], rest4)
          | _ => .error "expected comma or closing brace"
      | _ => .error "expected colon"

/-- `json.Unmarshal` of a planned `ConfigData` string into a configuration
document (`map[string]interface` in the source), for the canonical
whitespace-free rendering produced by `jsonMarshal`. -/
def jsonUnmarshal (s : String) : Except String IntegrationConfigData :=
  match s.data with
  | ['\x7b', '\x7d'] => .ok []
  | '\x7b' :: rest =>
    match parseTopPairs s.length rest with
    | .error e => .error e
    | .ok (doc, []) => .ok doc
    | .ok (_, _ :: _) => .error "trailing characters after JSON document"
  | _ => .error "expected object"

/-- Modelled from the spec (§4.4): the shallow key-wise merge of the desired
document into the current remote document — desired keys overwrite existing
keys, keys absent from desired are preserved.  The merge step itself is absent
from src/ (the `is_fragment` flag is declared but never consulted by the
write path), so this definition follows the spec's words. -/
def mergeShallow (remote desired : IntegrationConfigData) : IntegrationConfigData :=
  (remote.map (fun kv =>
    match desired.lookup kv.1 with
    | some v => (kv.1, v)
    | none => kv))
  ++ desired.filter (fun kv => (remote.lookup kv.1).isNone)

/-- Modelled from the spec (§4.3): `buildThreePartID` — encode the three-part
identity by joining organization, provider key and internal id with a fixed
delimiter.  Only the call site (legacy read) is under src/; the body follows
the spec's words. -/
def buildThreePartID (organization providerKey internalID : String) : String :=
  organization ++ "/" ++ providerKey ++ "/" ++ internalID

/-- Split a character list on a delimiter character; the empty list yields one
empty part, mirroring splitting an empty string. -/
def splitOnChar (delim : Char) : List Char → List (List Char)
  | [] => [[]]
  | c :: rest =>
    if c = delim then [] :: splitOnChar delim rest
    else
      match splitOnChar delim rest with
      | [] => [[c]]
      | p :: ps => (c :: p) :: ps

/-- Modelled from the spec (§4.3): decode a composite identifier by splitting
on the delimiter and requiring exactly three parts, failing with the
malformed-identifier error otherwise.  Only the encoder's call site is under
src/; the body follows the spec's words. -/
def splitThreePartID (s : String) : Except Diag (String × String × String) :=
  match (splitOnChar '/' s.data).map String.mk with
  | [organization, providerKey, internalID] => .ok (organization, providerKey, internalID)
  | _ => .error (.malformedId s)

/-- The pagination loop shared verbatim by both variants' read paths
(framework Read lines 118–135, legacy read lines 71–87): issue `List` with the
current cursor, append the integrations whose `Name` equals the requested
name, stop when the response's cursor is empty, otherwise continue with the
returned cursor.  `responses` is the sequence of answers the remote gives to
the successive `List` calls; an exhausted sequence stands for a remote that
stops answering.  Returns the trace of `List` calls and the accumulated
matched integrations. -/
def readLoopT (organization providerKey name : String) :
    String → List ListResult → List OrganizationIntegration →
    List RemoteCall × Except Diag (List OrganizationIntegration)
  | cursor, [], _ =>
    ([.listCall organization providerKey cursor],
     .error (.remoteError "no response from remote"))
  | cursor, .fail e :: _, _ =>
    ([.listCall organization providerKey cursor], .error (.remoteError e))
  | cursor, .ok integrations apiResp :: rest, matched =>
    let matched' := matched ++ integrations.filter (fun i => i.Name == name)
    if apiResp.Cursor = "" then
      ([.listCall organization providerKey cursor], .ok matched')
    else
      let next := readLoopT organization providerKey name apiResp.Cursor rest matched'
      (.listCall organization providerKey cursor :: next.1, next.2)

/-- The uniqueness check both read paths apply to the accumulated matches
(framework lines 137–143, legacy lines 89–93): zero matches is Not Found,
more than one is Not Unique, otherwise the single match is used. -/
def matchStep : List OrganizationIntegration → Except Diag OrganizationIntegration
  | [] => .error .notFound
  | [integration] => .ok integration
  | _ :: _ :: _ => .error .notUnique

/-- The Matcher (§4.2, the in-loop name filter of lines 125–129 / 77–81
composed with the uniqueness check): filter the items by exact name equality
and enforce the one-match invariant. -/
def matchByName (items : List OrganizationIntegration) (name : String) :
    Except Diag OrganizationIntegration :=
  matchStep (items.filter (fun i => i.Name == name))

/-- Modelled from the spec (§4.1 Paginator): `fetchAll` accumulates every
page's items unfiltered, stopping on an empty next-cursor.  This is the
spec-side decomposition the code's fused loop is compared against. -/
def fetchAll : List ListResult → List OrganizationIntegration →
    Except Diag (List OrganizationIntegration)
  | [], _ => .error (.remoteError "no response from remote")
  | .fail e :: _, _ => .error (.remoteError e)
  | .ok items apiResp :: rest, acc =>
    if apiResp.Cursor = "" then .ok (acc ++ items)
    else fetchAll rest (acc ++ items)

/-- `Fill` of the framework variant (lines 94–102): populate the model from
the organization slug, the marshalled configuration document and the matched
integration. -/
def ResourceModel.Fill (r : ResourceModel) (organizationSlug : String)
    (configData : String) (d : OrganizationIntegration) : ResourceModel :=
  { r with
    Id := d.ID
    Organization := organizationSlug
    ProviderKey := d.Provider.Key
    Name := d.Name
    ConfigData := configData }

/-- The framework variant's `Read` (lines 104–156): run the pagination loop
with the stored identity, apply the uniqueness check, marshal the matched
integration's `ConfigData` to JSON and `Fill` a local copy of the model —
which the source then discards: unlike `Create` (line 179), `Read` never
calls `resp.State.Set`, so on success the caller-visible state remains the
prior state the request carried.  Returns the trace of remote calls and the
delivered state or diagnostic. -/
def frameworkRead (data : ResourceModel) (responses : List ListResult) :
    List RemoteCall × Except Diag ResourceModel :=
  ((readLoopT data.Organization data.ProviderKey data.Name "" responses []).1,
   match (readLoopT data.Organization data.ProviderKey data.Name "" responses []).2 with
   | .error e => .error e
   | .ok matchedIntegrations =>
     match matchStep matchedIntegrations with
     | .error e => .error e
     | .ok integration =>
       let _filled :=
         data.Fill data.Organization (jsonMarshal integration.ConfigData) integration
       .ok data)

/-- The legacy variant's read (part_000 lines 51–105): run the pagination loop
with the stored identity, apply the uniqueness check, set the resource id to
the three-part composite of organization, provider key and the `internal_id`
taken from the state, and set `config` to the matched integration's
`ConfigData` (organization, provider key and name are re-set to the values
just read from the state). -/
def legacyRead (d : LegacyResourceData) (responses : List ListResult) :
    List RemoteCall × Except Diag LegacyResourceData :=
  ((readLoopT d.organization d.providerKey d.name "" responses []).1,
   match (readLoopT d.organization d.providerKey d.name "" responses []).2 with
   | .error e => .error e
   | .ok matchedIntegrations =>
     match matchStep matchedIntegrations with
     | .error e => .error e
     | .ok integration =>
       .ok { d with
             id := buildThreePartID d.organization d.providerKey d.internalId
             config := integration.ConfigData })

/-- The framework variant's `Create` (lines 158–180): unmarshal the planned
`ConfigData` JSON document, submit it to `UpdateConfig` for the planned
organization and id, and on success store the plan data unchanged.  The
`updateConfig` argument is the remote endpoint's oracle. -/
def frameworkCreate (data : ResourceModel)
    (updateConfig : String → String → IntegrationConfigData →
      Except String OrganizationIntegration) :
    List RemoteCall × Except Diag ResourceModel :=
  match jsonUnmarshal data.ConfigData with
  | .error e => ([], .error (.conversionError e))
  | .ok configData =>
    match updateConfig data.Organization data.Id configData with
    | .error e =>
      ([RemoteCall.updateConfigCall data.Organization data.Id configData],
       .error (.remoteError e))
    | .ok _ =>
      ([RemoteCall.updateConfigCall data.Organization data.Id configData],
       .ok data)

/-- The legacy variant's update (part_000 lines 107–130): submit the stored
`config` document to `UpdateConfig`; on failure surface the error, on success
keep the id (`SetId(d.Id())`) and re-run the legacy read. -/
def legacyUpdate (d : LegacyResourceData)
    (updateConfig : String → String → IntegrationConfigData →
      Except String OrganizationIntegration)
    (responses : List ListResult) :
    List RemoteCall × Except Diag LegacyResourceData :=
  match updateConfig d.organization d.id d.config with
  | .error e =>
    ([RemoteCall.updateConfigCall d.organization d.id d.config],
     .error (.remoteError e))
  | .ok _ =>
    (RemoteCall.updateConfigCall d.organization d.id d.config :: (legacyRead d responses).1,
     (legacyRead d responses).2)

/-- The legacy variant's delete (part_000 lines 132–152): submit the empty
configuration document to `UpdateConfig`; on failure surface the error, on
success clear the resource id.  No other remote endpoint is touched. -/
def legacyDelete (d : LegacyResourceData)
    (updateConfig : String → String → IntegrationConfigData →
      Except String OrganizationIntegration) :
    List RemoteCall × Except Diag LegacyResourceData :=
  match updateConfig d.organization d.id [] with
  | .error e =>
    ([RemoteCall.updateConfigCall d.organization d.id []],
     .error (.remoteError e))
  | .ok _ =>
    ([RemoteCall.updateConfigCall d.organization d.id []],
     .ok { d with id := "" })

/-- A response sequence that terminates the pagination loop normally: at least
one page, every answer successful, every page before the last carrying a
non-empty cursor and the last an empty cursor. -/
def properPages : List ListResult → Bool
  | [] => false
  | [ListResult.ok _ apiResp] => apiResp.Cursor = ""
  | ListResult.ok _ apiResp :: r :: rest =>
    (apiResp.Cursor != "") && properPages (r :: rest)
  | ListResult.fail _ :: _ => false

/-- A run of successful pages that does not terminate the loop: every answer
successful with a non-empty cursor. -/
def okNonTerminal : List ListResult → Bool
  | [] => true
  | ListResult.ok _ apiResp :: rest => (apiResp.Cursor != "") && okNonTerminal rest
  | ListResult.fail _ :: _ => false

/-- Fixture: an integration named "A". -/
def iA : OrganizationIntegration :=
  { ID := "1", Provider := { Key := "slack" }, Name := "A", ConfigData := [] }

/-- Fixture: a second, distinct integration also named "A". -/
def iA2 : OrganizationIntegration :=
  { ID := "2", Provider := { Key := "slack" }, Name := "A", ConfigData := [] }

/-- Fixture: an integration named "B". -/
def iB : OrganizationIntegration :=
  { ID := "3", Provider := { Key := "slack" }, Name := "B", ConfigData := [] }

/-- Fixture: an integration named "X" on page one. -/
def iX : OrganizationIntegration :=
  { ID := "idX", Provider := { Key := "slack" }, Name := "X", ConfigData := [] }

/-- Fixture: the integration named "Y" the concrete reads match, with one
configuration entry. -/
def iY : OrganizationIntegration :=
  { ID := "idY", Provider := { Key := "slack" }, Name := "Y",
    ConfigData := [("k", ConfigValue.str "v")] }

/-- Fixture: an integration named "Z" on page two. -/
def iZ : OrganizationIntegration :=
  { ID := "idZ", Provider := { Key := "slack" }, Name := "Z", ConfigData := [] }

/-- Fixture: a two-page response sequence, the first page carrying cursor
"c2", the second terminating with the empty cursor. -/
def pages0 : List ListResult :=
  [ListResult.ok [iX, iY] { Cursor := "c2" }, ListResult.ok [iZ] { Cursor := "" }]

/-- Fixture: a single-page response sequence whose only item is `iY`. -/
def responses0l : List ListResult := [ListResult.ok [iY] { Cursor := "" }]

/-- Fixture: legacy state whose stored `internal_id` ("stored") differs from
the id of the integration the read will match (`iY.ID` = "idY"). -/
def d0 : LegacyResourceData :=
  { id := "old", organization := "org", providerKey := "slack", name := "Y",
    config := [], internalId := "stored" }

/-- Fixture: the state the legacy read produces from `d0` and `responses0l`. -/
def d0cex : LegacyResourceData :=
  { d0 with id := buildThreePartID "org" "slack" "stored",
            config := [("k", ConfigValue.str "v")] }

/-- Fixture: framework state searching for name "Y" under provider "slack". -/
def data0f : ResourceModel :=
  { Id := "stale", Organization := "org", ProviderKey := "slack",
    IsFragment := false, Name := "Y", ConfigData := "" }

/-- Fixture: an update oracle that always succeeds. -/
def ucOk : String → String → IntegrationConfigData →
    Except String OrganizationIntegration :=
  fun _ _ _ => .ok iY

/-- Fixture: an update oracle that always fails with "boom". -/
def ucFail : String → String → IntegrationConfigData →
    Except String OrganizationIntegration :=
  fun _ _ _ => .error "boom"

/-- Fixture: the desired fragment document of the spec's merge example. -/
def desiredDoc : IntegrationConfigData :=
  [("b", ConfigValue.str "3"), ("c", ConfigValue.str "4")]

/-- Fixture: the current remote document of the spec's merge example. -/
def remoteDoc : IntegrationConfigData :=
  [("a", ConfigValue.str "1"), ("b", ConfigValue.str "2")]

/-- Fixture: a plan with the fragment flag set whose desired document is the
JSON rendering of `desiredDoc`. -/
def fragmentPlan : ResourceModel :=
  { Id := "int-1", Organization := "org", ProviderKey := "slack",
    IsFragment := true, Name := "Y",
    ConfigData := "\x7b\"b\":\"3\",\"c\":\"4\"\x7d" }

/-- A normally terminated response sequence makes the spec's paginator return
every page's items, concatenated in page order, after the accumulator. -/
theorem fetchAll_proper (pages : List ListResult) :
    ∀ (acc : List OrganizationIntegration), properPages pages = true →
      fetchAll pages acc = .ok (acc ++ (pages.map pageItems).flatten) := by
  induction pages with
  | nil => intro acc h; simp [properPages] at h
  | cons page rest ih =>
    intro acc h
    cases page with
    | fail e => simp [properPages] at h
    | ok items apiResp =>
      cases rest with
      | nil =>
        have hc : apiResp.Cursor = "" := by simpa [properPages] using h
        simp [fetchAll, hc, pageItems]
      | cons r2 rs =>
        have h' : apiResp.Cursor ≠ "" ∧ properPages (r2 :: rs) = true := by
          simpa [properPages] using h
        simp [fetchAll, h'.1, pageItems, ih _ h'.2]

/-- A normally terminated response sequence makes the code's fused pagination
loop return the name-filtered concatenation of every page's items, in page
order, after the accumulator. -/
theorem readLoopT_proper (organization providerKey name : String)
    (pages : List ListResult) :
    ∀ (cursor : String) (acc : List OrganizationIntegration),
      properPages pages = true →
      (readLoopT organization providerKey name cursor pages acc).2 =
        .ok (acc ++ ((pages.map pageItems).flatten).filter (fun i => i.Name == name)) := by
  induction pages with
  | nil => intro cursor acc h; simp [properPages] at h
  | cons page rest ih =>
    intro cursor acc h
    cases page with
    | fail e => simp [properPages] at h
    | ok items apiResp =>
      cases rest with
      | nil =>
        have hc : apiResp.Cursor = "" := by simpa [properPages] using h
        simp [readLoopT, hc, pageItems, List.filter_append]
      | cons r2 rs =>
        have h' : apiResp.Cursor ≠ "" ∧ properPages (r2 :: rs) = true := by
          simpa [properPages] using h
        simp [readLoopT, h'.1, pageItems, ih _ _ h'.2, List.filter_append]

/-- A failed page reached after any run of successful non-terminal pages makes
the pagination loop fail with that page's remote error, whatever was
accumulated before it. -/
theorem readLoopT_err (organization providerKey name : String)
    (front : List ListResult) :
    ∀ (cursor : String) (rest : List ListResult) (e : String)
      (acc : List OrganizationIntegration), okNonTerminal front = true →
      (readLoopT organization providerKey name cursor
        (front ++ ListResult.fail e :: rest) acc).2 = .error (.remoteError e) := by
  induction front with
  | nil => intro cursor rest e acc _; simp [readLoopT]
  | cons page ps ih =>
    intro cursor rest e acc h
    cases page with
    | fail e2 => simp [okNonTerminal] at h
    | ok items apiResp =>
      have h' : apiResp.Cursor ≠ "" ∧ okNonTerminal ps = true := by
        simpa [okNonTerminal] using h
      simp [readLoopT, h'.1, ih _ _ _ _ h'.2]

/-- The fused loop started on a filtered accumulator computes exactly the
name-filter of what the spec's paginator computes, on every response
sequence, errors included. -/
theorem readLoopT_eq_fetchAll (organization providerKey name : String)
    (pages : List ListResult) :
    ∀ (cursor : String) (acc : List OrganizationIntegration),
      (readLoopT organization providerKey name cursor pages
        (acc.filter (fun i => i.Name == name))).2 =
      (fetchAll pages acc).map (List.filter (fun i => i.Name == name)) := by
  induction pages with
  | nil => intro cursor acc; simp [readLoopT, fetchAll, Except.map]
  | cons page rest ih =>
    intro cursor acc
    cases page with
    | fail e => simp [readLoopT, fetchAll, Except.map]
    | ok items apiResp =>
      by_cases hc : apiResp.Cursor = ""
      · simp [readLoopT, fetchAll, hc, Except.map, List.filter_append]
      · simp only [readLoopT, fetchAll, if_neg hc, ← List.filter_append]
        exact ih _ _

/-- The uniqueness check succeeds exactly on a singleton match list. -/
theorem matchStep_ok (l : List OrganizationIntegration) (i : OrganizationIntegration)
    (h : matchStep l = .ok i) : l = [i] := by
  match l with
  | [] => cases h
  | [j] => cases h; rfl
  | a :: b :: r => cases h

/-- Every item a successful pagination loop returns either came from the
accumulator or carries the requested name and stems from one of the pages. -/
theorem readLoopT_ok_mem (organization providerKey name : String)
    (pages : List ListResult) :
    ∀ (cursor : String) (acc l : List OrganizationIntegration),
      (readLoopT organization providerKey name cursor pages acc).2 = .ok l →
      ∀ i ∈ l, i ∈ acc ∨ (i.Name = name ∧ ∃ pg ∈ pages, i ∈ pageItems pg) := by
  induction pages with
  | nil => intro cursor acc l h; cases h
  | cons page rest ih =>
    intro cursor acc l h i hi
    cases page with
    | fail e => cases h
    | ok items apiResp =>
      by_cases hc : apiResp.Cursor = ""
      · simp only [readLoopT, if_pos hc] at h
        cases h
        rcases List.mem_append.mp hi with hacc | hfil
        · exact Or.inl hacc
        · rcases List.mem_filter.mp hfil with ⟨hmem, hname⟩
          exact Or.inr ⟨by simpa using hname, ListResult.ok items apiResp,
            by simp, by simpa [pageItems] using hmem⟩
      · simp only [readLoopT, if_neg hc] at h
        rcases ih _ _ _ h i hi with hacc | ⟨hname, pg, hpg, hpgi⟩
        · rcases List.mem_append.mp hacc with h1 | hfil
          · exact Or.inl h1
          · rcases List.mem_filter.mp hfil with ⟨hmem, hname⟩
            exact Or.inr ⟨by simpa using hname, ListResult.ok items apiResp,
              by simp, by simpa [pageItems] using hmem⟩
        · exact Or.inr ⟨hname, pg, by simp [hpg], hpgi⟩

/-- Splitting a list that starts with a delimiter-free run followed by the
delimiter peels off that run as the first part. -/
theorem splitOnChar_append_delim (delim : Char) (a : List Char)
    (rest : List Char) (h : delim ∉ a) :
    splitOnChar delim (a ++ delim :: rest) = a :: splitOnChar delim rest := by
  induction a with
  | nil => simp [splitOnChar]
  | cons c a ih =>
    have hc : c ≠ delim := fun hcd => h (by simp [hcd])
    have ha : delim ∉ a := fun hm => h (List.mem_cons_of_mem _ hm)
    simp [splitOnChar, hc, ih ha]

/-- Splitting a delimiter-free list yields that list as the single part. -/
theorem splitOnChar_no_delim (delim : Char) (a : List Char) (h : delim ∉ a) :
    splitOnChar delim a = [a] := by
  induction a with
  | nil => rfl
  | cons c a ih =>
    have hc : c ≠ delim := fun hcd => h (by simp [hcd])
    have ha : delim ∉ a := fun hm => h (List.mem_cons_of_mem _ hm)
    simp [splitOnChar, hc, ih ha]

/-- The character content of an encoded three-part composite identifier. -/
theorem buildThreePartID_data (organization providerKey internalID : String) :
    (buildThreePartID organization providerKey internalID).data =
      organization.data ++ '/' :: (providerKey.data ++ '/' :: internalID.data) := by
  have hslash : "/".data = ['/'] := rfl
  simp [buildThreePartID, String.data_append, hslash]

/-- C1: the claim says the framework write path submits the shallow merge of
the remote document with the desired document when the fragment flag is true.
The code declares the flag but never consults it: at the concrete input of
the spec's merge example (remote document a=1,b=2; desired document b=3,c=4;
fragment flag set) the create path submits the desired document verbatim to
`UpdateConfig`, which differs from the shallow merge a=1,b=3,c=4 promised by
the `is_fragment` attribute's own description. -/
theorem fragment_flag_not_merged :
    fragmentPlan.IsFragment = true ∧
    frameworkCreate fragmentPlan ucOk =
      ([RemoteCall.updateConfigCall "org" "int-1" desiredDoc], .ok fragmentPlan) ∧
    mergeShallow remoteDoc desiredDoc =
      [("a", ConfigValue.str "1"), ("b", ConfigValue.str "3"),
       ("c", ConfigValue.str "4")] ∧
    desiredDoc ≠ mergeShallow remoteDoc desiredDoc := by decide

/-- C2: the match step filters the items to those whose name equals the given
name exactly (case-sensitively, no normalization); zero matches fail with the
not-found error, several matches fail with the not-unique error, and a single
match is returned. -/
theorem matchByName_contract (items : List OrganizationIntegration) (name : String) :
    (∀ i, i ∈ items.filter (fun j => j.Name == name) ↔ (i ∈ items ∧ i.Name = name)) ∧
    (items.filter (fun j => j.Name == name) = [] →
      matchByName items name = .error Diag.notFound) ∧
    ((items.filter (fun j => j.Name == name)).length > 1 →
      matchByName items name = .error Diag.notUnique) ∧
    (∀ i, items.filter (fun j => j.Name == name) = [i] →
      matchByName items name = .ok i) := by
  refine ⟨?_, ?_, ?_, ?_⟩
  · intro i; simp [List.mem_filter]
  · intro h; simp [matchByName, h, matchStep]
  · intro h
    match hf : items.filter (fun j => j.Name == name) with
    | [] => rw [hf] at h; simp at h
    | [a] => rw [hf] at h; simp at h
    | a :: b :: r => simp [matchByName, hf, matchStep]
  · intro i h; simp [matchByName, h, matchStep]

/-- C2 witness: the matcher on name multiset A,A is not-unique, on A returns
the item, on the empty set and on B alone is not-found. -/
theorem matchByName_contract_witness :
    matchByName [iA, iA2] "A" = .error Diag.notUnique ∧
    matchByName [iA] "A" = .ok iA ∧
    matchByName ([] : List OrganizationIntegration) "A" = .error Diag.notFound ∧
    matchByName [iB] "A" = .error Diag.notFound :=
  ⟨(matchByName_contract [iA, iA2] "A").2.2.1 (by decide),
   (matchByName_contract [iA] "A").2.2.2 iA (by decide),
   (matchByName_contract [] "A").2.1 (by decide),
   (matchByName_contract [iB] "A").2.1 (by decide)⟩

/-- C3: for every response sequence whose final page carries an empty
next-cursor (earlier pages non-empty cursors, no failures), the paginator
accumulates the concatenation of all pages' items in per-page order, each item
exactly once; the code's pagination loop accumulates exactly the
name-matching part of that concatenation, in the same order, consuming the
pages the same way — starting from the empty cursor and following the
returned cursors until the empty one. -/
theorem pagination_accumulates_concat (organization providerKey name : String)
    (pages : List ListResult) (h : properPages pages = true) :
    fetchAll pages [] = .ok ((pages.map pageItems).flatten) ∧
    (readLoopT organization providerKey name "" pages []).2 =
      .ok (((pages.map pageItems).flatten).filter (fun i => i.Name == name)) := by
  constructor
  · simpa using fetchAll_proper pages [] h
  · simpa using readLoopT_proper organization providerKey name pages "" [] h

/-- C3 witness: on the concrete two-page sequence the paginator returns the
three items X, Y, Z in order and the loop for name "Y" returns exactly Y. -/
theorem pagination_accumulates_concat_witness :
    fetchAll pages0 [] = .ok ((pages0.map pageItems).flatten) ∧
    (readLoopT "org" "slack" "Y" "" pages0 []).2 =
      .ok (((pages0.map pageItems).flatten).filter (fun i => i.Name == "Y")) :=
  pagination_accumulates_concat "org" "slack" "Y" pages0 (by decide)

/-- C4: for every identity and every behaviour of the remote, the legacy
delete issues exactly one remote call, an `UpdateConfig` whose configuration
document is the empty mapping — deletion is overwrite-with-empty-document,
and no other remote endpoint appears in the trace. -/
theorem delete_single_empty_update (d : LegacyResourceData)
    (updateConfig : String → String → IntegrationConfigData →
      Except String OrganizationIntegration) :
    (legacyDelete d updateConfig).1 =
      [RemoteCall.updateConfigCall d.organization d.id []] := by
  unfold legacyDelete
  cases updateConfig d.organization d.id [] <;> rfl

/-- C5 counterexample: on a read whose matched integration has internal id
"idY" while the state's stored `internal_id` is "stored", the composite id the
legacy read sets is built from "stored", not from the matched item's id — the
claim that the id is recomputed from the matched integration's internal id is
false on the code. -/
theorem legacy_id_cex :
    (legacyRead d0 responses0l).2 = .ok d0cex ∧
    d0cex.id ≠ buildThreePartID d0.organization d0.providerKey iY.ID := by decide

/-- C5 (amended): on a successful legacy read the composite identifier is
recomputed from the organization, the providerKey, and the `internal_id`
taken from the resource state — the matched integration's own id is not
consulted. -/
theorem legacy_id_amended (d : LegacyResourceData) (responses : List ListResult)
    (d' : LegacyResourceData) (h : (legacyRead d responses).2 = .ok d') :
    d'.id = buildThreePartID d.organization d.providerKey d.internalId := by
  simp only [legacyRead] at h
  split at h
  · exact (Except.noConfusion h)
  · split at h
    · exact (Except.noConfusion h)
    · injection h with h2
      rw [← h2]

/-- C5 witness: the concrete successful legacy read yields the composite id
built from the stored internal id. -/
theorem legacy_id_amended_witness :
    d0cex.id = buildThreePartID d0.organization d0.providerKey d0.internalId :=
  legacy_id_amended d0 responses0l d0cex (by decide)

/-- C6 (code bug, framework half): the claim says the caller-visible output
state of a successful read of either variant is populated with the
organization, the provider key, the name and the matched integration's
projected configuration.  The legacy variant does this (its `d.Set` calls
deliver the matched `ConfigData`), but the framework variant's `Read`
computes the filled model and discards it — `resp.State.Set` is never called
in `Read`, its only occurrence being in `Create` — so at this concrete
successful read the delivered state keeps the stale prior id and
configuration instead of the matched integration's id and JSON-serialized
configuration the discarded `Fill` result carries. -/
theorem framework_read_discards_fill :
    (frameworkRead data0f responses0l).2 = .ok data0f ∧
    data0f.Fill data0f.Organization (jsonMarshal iY.ConfigData) iY ≠ data0f ∧
    data0f.Id ≠ iY.ID ∧
    data0f.ConfigData ≠ jsonMarshal iY.ConfigData ∧
    (legacyRead d0 responses0l).2 = .ok d0cex ∧
    d0cex.config = iY.ConfigData := by decide

/-- C7: a `List` failure reached after any run of successful non-terminal
pages fails the whole invocation with that remote error and discards the
already accumulated items — the loop result carries no items and neither
variant's read ever reaches the match step, whose not-found or not-unique
outcomes cannot appear. -/
theorem pagination_error_discards (organization providerKey name cursor : String)
    (data : ResourceModel) (d : LegacyResourceData)
    (front rest : List ListResult) (e : String)
    (acc : List OrganizationIntegration)
    (hok : okNonTerminal front = true) :
    (readLoopT organization providerKey name cursor
        (front ++ ListResult.fail e :: rest) acc).2 = .error (.remoteError e) ∧
    (frameworkRead data (front ++ ListResult.fail e :: rest)).2 =
      .error (.remoteError e) ∧
    (legacyRead d (front ++ ListResult.fail e :: rest)).2 =
      .error (.remoteError e) := by
  refine ⟨readLoopT_err organization providerKey name front cursor rest e acc hok, ?_, ?_⟩
  · simp only [frameworkRead]
    rw [readLoopT_err data.Organization data.ProviderKey data.Name front "" rest e [] hok]
  · simp only [legacyRead]
    rw [readLoopT_err d.organization d.providerKey d.name front "" rest e [] hok]

/-- C7 witness: a failure on page two of a concrete sequence fails both reads
with the remote error "boom". -/
theorem pagination_error_discards_witness :
    (readLoopT "org" "slack" "Y" ""
        ([ListResult.ok [iX] { Cursor := "c2" }] ++ ListResult.fail "boom" :: []) []).2 =
      .error (.remoteError "boom") ∧
    (frameworkRead data0f
        ([ListResult.ok [iX] { Cursor := "c2" }] ++ ListResult.fail "boom" :: [])).2 =
      .error (.remoteError "boom") ∧
    (legacyRead d0
        ([ListResult.ok [iX] { Cursor := "c2" }] ++ ListResult.fail "boom" :: [])).2 =
      .error (.remoteError "boom") :=
  pagination_error_discards "org" "slack" "Y" "" data0f d0
    [ListResult.ok [iX] { Cursor := "c2" }] [] "boom" [] (by decide)

/-- C8: when the legacy update's `UpdateConfig` succeeds, the operation's
result (trace and outcome) is the update call followed by a full re-run of
the legacy read, whose result becomes the operation's result; when
`UpdateConfig` fails, the trace holds the update call alone — no `List` call,
so the read is not invoked — and the error is surfaced. -/
theorem legacy_update_reread (d : LegacyResourceData)
    (uc ucf : String → String → IntegrationConfigData →
      Except String OrganizationIntegration)
    (responses : List ListResult) (r : OrganizationIntegration) (e : String)
    (hok : uc d.organization d.id d.config = .ok r)
    (hfail : ucf d.organization d.id d.config = .error e) :
    legacyUpdate d uc responses =
      (RemoteCall.updateConfigCall d.organization d.id d.config ::
        (legacyRead d responses).1,
       (legacyRead d responses).2) ∧
    legacyUpdate d ucf responses =
      ([RemoteCall.updateConfigCall d.organization d.id d.config],
       .error (.remoteError e)) := by
  constructor
  · unfold legacyUpdate; rw [hok]
  · unfold legacyUpdate; rw [hfail]

/-- C8 witness: the concrete legacy update re-reads on success and surfaces
"boom" without reading on failure. -/
theorem legacy_update_reread_witness :
    legacyUpdate d0 ucOk responses0l =
      (RemoteCall.updateConfigCall d0.organization d0.id d0.config ::
        (legacyRead d0 responses0l).1,
       (legacyRead d0 responses0l).2) ∧
    legacyUpdate d0 ucFail responses0l =
      ([RemoteCall.updateConfigCall d0.organization d0.id d0.config],
       .error (.remoteError "boom")) :=
  legacy_update_reread d0 ucOk ucFail responses0l iY "boom" rfl rfl

/-- C9: for any organization, provider key and internal id free of the
delimiter, decoding the encoded composite identifier returns exactly the
three original parts, and any input that does not split into exactly three
delimiter-separated parts fails to decode with the malformed-identifier
error. -/
theorem threePartID_codec (organization providerKey internalID s : String)
    (ha : '/' ∉ organization.data) (hb : '/' ∉ providerKey.data)
    (hc : '/' ∉ internalID.data)
    (hs : (splitOnChar '/' s.data).length ≠ 3) :
    splitThreePartID (buildThreePartID organization providerKey internalID) =
      .ok (organization, providerKey, internalID) ∧
    splitThreePartID s = .error (.malformedId s) := by
  constructor
  · unfold splitThreePartID
    rw [buildThreePartID_data,
        splitOnChar_append_delim '/' organization.data _ ha,
        splitOnChar_append_delim '/' providerKey.data _ hb,
        splitOnChar_no_delim '/' internalID.data hc]
    rfl
  · unfold splitThreePartID
    split
    · rename_i a b c heq
      exact absurd (by simpa using congrArg List.length heq) hs
    · rfl

/-- C9 witness: the concrete triple (org, slack, 123) round-trips and the
two-part string a-b fails to decode. -/
theorem threePartID_codec_witness :
    splitThreePartID (buildThreePartID "org" "slack" "123") =
      .ok ("org", "slack", "123") ∧
    splitThreePartID "a-b" = .error (.malformedId "a-b") :=
  threePartID_codec "org" "slack" "123" "a-b"
    (by decide) (by decide) (by decide) (by decide)

/-- C10: filtering each fetched page by name inside the pagination loop and
then applying the uniqueness check to the accumulated matches — the code's
shape — coincides, on every response sequence and every name, with the spec's
decomposition that first concatenates all pages via the paginator and then
applies the name matcher to the whole sequence: same matched item, same
zero-or-multiple-match error, same remote error. -/
theorem loop_match_refines_spec (organization providerKey name : String)
    (pages : List ListResult) :
    ((readLoopT organization providerKey name "" pages []).2.bind matchStep) =
      ((fetchAll pages []).bind (fun items => matchByName items name)) := by
  have key := readLoopT_eq_fetchAll organization providerKey name pages "" []
  simp only [List.filter_nil] at key
  rw [key]
  cases fetchAll pages [] with
  | error e => rfl
  | ok items => rfl
